import Mathlib

/-
Verification of the CleanCSS core (cleancss/__init__.py): a shallow embedding
of the Parser class — comment stripping, indentation tracking, statement
classification, selector flattening, property callbacks/prefixing, rule
accumulation and output rendering — together with theorems settling the
frozen claims about it.

Python machine model used throughout:
  * a source line is a `List Char` (no trailing newline);
  * Python lists used as stacks (append / pop at the end) are Lean lists
    kept in the same order, so `pop` is `dropLast`;
  * exceptions are `Except`: `ParserError` carries line number and message,
    and an uncaught Python `IndexError` (from indexing an empty list) is the
    distinguished error `PError.indexError`.
-/

namespace CleanCss

/-- Characters matched by Python's regex class `\s` and by `str.strip()`
(ASCII range, which is all the source language uses). -/
def pyWs (c : Char) : Bool :=
  c = ' ' || c = '\t' || c = '\n' || c = '\r' || c = '\x0b' || c = '\x0c'

/-- `str.strip()` on a character list: drop whitespace from both ends. -/
def pyStripList (l : List Char) : List Char :=
  ((l.dropWhile pyWs).reverse.dropWhile pyWs).reverse

/-- `str.strip()` on a string. -/
def pyStrip (s : String) : String := String.mk (pyStripList s.data)

/-- Length of the leading whitespace, i.e. of the match of `_r_indentation`
(regex `^\s*`). -/
def leadingWs (l : List Char) : Nat := (l.takeWhile pyWs).length

/-- `str.join` (Python `sep.join(xs)`): empty for `[]`, no trailing
separator. -/
def joinSep (sep : String) : List String → String
  | [] => ""
  | [x] => x
  | x :: y :: xs => x ++ sep ++ joinSep sep (y :: xs)

/-- `'...'.split(',')` on a character list: splits at every comma, keeping
empty pieces (so the result is always nonempty). -/
def splitComma : List Char → List (List Char)
  | [] => [[]]
  | ',' :: rest =>
    [] :: splitComma rest
  | c :: rest =>
    match splitComma rest with
    | [] => [[c]]
    | p :: ps => (c :: p) :: ps

/-- Python `s.startswith("@media")`. -/
def startsWithMedia (s : String) : Bool :=
  "@media".data.isPrefixOf s.data

/-- Whether the block-comment terminator `*/` occurs in the list (used to
decide whether `/\x2a.*?\x2a/`, the first alternative of `_r_comment`, can
match from a given `/\x2a`). -/
def hasBlockEnd : List Char → Bool
  | [] => false
  | c :: rest =>
    match rest with
    | [] => false
    | d :: _ => (c == '*' && d == '/') || hasBlockEnd rest

/-- One left-to-right pass of `_r_comment.sub('', line)` for the pattern
`/\x2a.*?\x2a/|(?<!:)//.*$`.  The first component is "currently inside a
matched single-line block comment"; the second is the character preceding
the current position in the original line (for the `(?<!:)` lookbehind,
which inspects the original string, not the partially built result).  At a
`/\x2a` the first alternative matches (up to the nearest later `\x2a/`) only
when such a terminator exists; at a `//` not preceded by `:` the second
alternative consumes the rest of the line; any unmatched character is kept
and becomes the next lookbehind character. -/
def stripScan : Bool → Option Char → List Char → List Char
  | _, _, [] => []
  | true, _, [_] => []
  | true, _, c :: d :: rest' =>
    if c = '*' ∧ d = '/' then stripScan false (some '/') rest'
    else stripScan true none (d :: rest')
  | false, _, [c] => [c]
  | false, prev, c :: d :: rest' =>
    if c = '/' ∧ d = '*' ∧ hasBlockEnd rest' = true then stripScan true none rest'
    else if c = '/' ∧ d = '/' ∧ prev ≠ some ':' then []
    else c :: stripScan false (some c) (d :: rest')

/-- The lookbehind character after scanning a list of kept characters:
the last character of the list, or the incoming lookbehind if it is empty. -/
def lastOr (prev : Option Char) : List Char → Option Char
  | [] => prev
  | c :: rest => lastOr (some c) rest

/-- `Parser._r_comment.sub('', line)`: remove every single-line block comment
and any line comment `//` not immediately preceded by `:`. -/
def stripComments (s : String) : String := String.mk (stripScan false none s.data)

/-- Python `"/\x2a" in line` (the `_multi_comment_start` containment test). -/
def containsCommentStart : List Char → Bool
  | '/' :: '*' :: _ => true
  | _ :: rest => containsCommentStart rest
  | [] => false

/-- `line[:line.index("/\x2a")]`: truncate at the first block-comment start. -/
def truncAtCommentStart : List Char → List Char
  | '/' :: '*' :: _ => []
  | c :: rest => c :: truncAtCommentStart rest
  | [] => []

/-- `line[line.index("\x2a/")+2:]` when `"\x2a/" in line`, else `none`:
the remainder after the first block-comment end. -/
def afterCommentEnd : List Char → Option (List Char)
  | '*' :: '/' :: rest => some rest
  | _ :: rest => afterCommentEnd rest
  | [] => none

/-- Match of `_r_selector` (regex `^(.+)\s*:$`) against a stripped line:
succeeds iff the line ends in `:` with at least one character before it,
capturing everything before that final colon. -/
def matchSelector (l : List Char) : Option (List Char) :=
  if 2 ≤ l.length ∧ l.getLast? = some ':' then some l.dropLast else none

/-- Characters allowed in the token of `_r_property_prefix`
(regex class `[^:>\s]`). -/
def prefixTokenChar (c : Char) : Bool := !(c = ':' || c = '>' || pyWs c)

/-- Match of `_r_property_prefix` (regex `^([^:>\s]+)->$`): a nonempty
token of allowed characters followed by the literal arrow at end of line. -/
def matchPrefixHeader (l : List Char) : Option (List Char) :=
  if l.length ≥ 3 ∧ l.drop (l.length - 2) = ['-', '>'] ∧
      (l.take (l.length - 2)).all prefixTokenChar then
    some (l.take (l.length - 2))
  else none

/-- After a candidate property name, match `\s*:\s*(.+)$`: skip maximal
whitespace, require `:`, skip maximal whitespace, require a nonempty rest
(the value).  Sound for stripped lines (no trailing whitespace). -/
def defnTail (r : List Char) : Option (List Char) :=
  match r.dropWhile pyWs with
  | ':' :: r2 =>
    match r2.dropWhile pyWs with
    | [] => none
    | g2 => some g2
  | _ => none

/-- Backtracking search of `_r_definition` (regex `^([^\s]+)\s*:\s*(.+)$`):
try name lengths `k, k-1, ..., 1` (the regex prefers the longest name). -/
def matchDefinitionAux (l : List Char) : Nat → Option (List Char × List Char)
  | 0 => none
  | k + 1 =>
    match defnTail (l.drop (k + 1)) with
    | some g2 => some (l.take (k + 1), g2)
    | none => matchDefinitionAux l k

/-- Match of `_r_definition` against a stripped line: the name is the longest
nonempty whitespace-free prefix that is followed by `\s*:\s*` and a nonempty
value. -/
def matchDefinition (l : List Char) : Option (List Char × List Char) :=
  matchDefinitionAux l (l.takeWhile (fun c => !pyWs c)).length

/-- The combination step inside `Parser.flattenSelectors`: Python
`tail[0] == '&'` raises `IndexError` on an empty tail (modelled as `none`);
a leading `&` is stripped and the tail concatenated directly, otherwise a
single space is inserted. -/
def combineTail (head tail : String) : Option String :=
  match tail.data with
  | [] => none
  | c :: cs =>
    if c = '&' then some (head ++ String.mk cs) else some (head ++ " " ++ tail)

/-- The inner loop of `Parser.flattenSelectors`: combine one head selector
with every tail, in order. -/
def combineAll (head : String) : List String → Option (List String)
  | [] => some []
  | t :: ts =>
    match combineTail head t, combineAll head ts with
    | some s, some ss => some (s :: ss)
    | _, _ => none

/-- The outer loop of `Parser.flattenSelectors`: heads outermost, tails
innermost. -/
def combineBase (tails : List String) : List String → Option (List String)
  | [] => some []
  | h :: hs =>
    match combineAll h tails, combineBase tails hs with
    | some xs, some ys => some (xs ++ ys)
    | _, _ => none

/-- `Parser.flattenSelectors`: `selectorTree[0]` on an empty tree raises
`IndexError` (`none`); one level returns its own selectors; otherwise the
tail of the stack is flattened recursively and combined with every head
selector. -/
def flattenSelectors : List (List String) → Option (List String)
  | [] => none
  | [base] => some base
  | base :: g :: rest =>
    match flattenSelectors (g :: rest) with
    | none => none
    | some tails => combineBase tails base

/-- A parser failure: `ParserError(lineno, message)`, or an uncaught Python
`IndexError` escaping the parser (no line number, not a `ParserError`). -/
inductive PError where
  | parserError (lineno : Nat) (message : String)
  | indexError
deriving DecidableEq

/-- The flattened selector text of an accumulated rule: either a plain
selector string, or (for the `@media` idiom) the Python tuple of the media
header and the inner selector text. -/
inductive RuleSel where
  | plain (s : String)
  | media (q inner : String)
deriving DecidableEq

/-- A property-rewriting callback, as registered by
`Parser.registerPropertyCallback`. -/
abbrev Callback := String → String → List (String × String)

/-- The mutable local state of `Parser.toCss`, just before reading a line. -/
structure PState where
  level : Nat
  indenter : Nat
  selectorsChanged : Bool
  comment : Bool
  rules : List (RuleSel × List String)
  cur_rule_tree : List (List String)
  rule_prefixes : List String
deriving DecidableEq

/-- The state at the top of `Parser.toCss`. -/
def initState : PState :=
  { level := 0, indenter := 0, selectorsChanged := false, comment := false,
    rules := [], cur_rule_tree := [], rule_prefixes := [] }

/-- The loop `while len(cur_rule_tree)+len(rule_prefixes)>newlevel and
len(rule_prefixes)>0: rule_prefixes.pop()`: popping from the end until the
combined depth fits keeps exactly the first `newlevel - treeLen` entries. -/
def popPrefixes (treeLen newlevel : Nat) (ps : List String) : List String :=
  ps.take (newlevel - treeLen)

/-- The loop `while len(cur_rule_tree)>newlevel: cur_rule_tree.pop()`:
popping from the end keeps the first `newlevel` groups. -/
def popTree (newlevel : Nat) (tree : List (List String)) : List (List String) :=
  tree.take newlevel

/-- The indentation unit in force while processing a line: lazily set to the
line's leading-whitespace length if it is the first indented line. -/
def effIndenter (st : PState) (line : List Char) : Nat :=
  if st.indenter = 0 ∧ 0 < leadingWs line then leadingWs line else st.indenter

/-- `newlevel = len(indentation) / indenter` (Python 2 floor division),
or 0 while no unit is established. -/
def effLevel (st : PState) (line : List Char) : Nat :=
  if 0 < effIndenter st line then leadingWs line / effIndenter st line else 0

/-- Lines 142-150 of `Parser.toCss`: when the selector set changed since the
last opened rule, flatten the current tree (the `@media` idiom flattens only
the inner levels) and append a fresh empty rule; `cur_rule_tree[0][0]` on an
empty tree or empty head group is an `IndexError`.  Returns the rule list
and the new `selectorsChanged` flag. -/
def openRule (st : PState) (tree : List (List String)) :
    Except PError (List (RuleSel × List String) × Bool) :=
  if st.selectorsChanged then
    match tree with
    | [] => .error .indexError
    | [] :: _ => .error .indexError
    | (s :: _) :: _ =>
      if startsWithMedia s then
        match flattenSelectors (tree.drop 1) with
        | none => .error .indexError
        | some ns => .ok (st.rules ++ [(.media s (joinSep ",\n" ns), [])], false)
      else
        match flattenSelectors tree with
        | none => .error .indexError
        | some ns => .ok (st.rules ++ [(.plain (joinSep ",\n" ns), [])], false)
  else .ok (st.rules, st.selectorsChanged)

/-- Lines 164-165 of `Parser.toCss`: `rules[-1][1].append(...)` for each
rendered declaration — `IndexError` if the rule list is empty. -/
def appendDecls (rules : List (RuleSel × List String)) (decls : List String) :
    Except PError (List (RuleSel × List String)) :=
  match rules.getLast? with
  | none => .error .indexError
  | some last => .ok (rules.dropLast ++ [(last.1, last.2 ++ decls)])

/-- The property-definition branch of `Parser.toCss` (lines 138-166), called
with the already-popped tree (known nonempty), prefixes and levels. -/
def definitionStep (cbs : List Callback) (st : PState) (u newlevel : Nat)
    (pfx : List String) (tree : List (List String)) (name value : String) :
    Except PError PState :=
  Except.bind (openRule st tree) fun rc =>
    let prefixStr := if pfx = [] then "" else joinSep "-" pfx ++ "-"
    let props := if cbs.isEmpty then [(name, value)]
                 else (cbs.map (fun cb => cb name value)).flatten
    let decls := props.map (fun pv => prefixStr ++ pv.1 ++ ": " ++ pv.2 ++ ";")
    Except.bind (appendDecls rc.1 decls) fun rules2 =>
      .ok { st with
            indenter := u
            level := newlevel
            rule_prefixes := pfx
            cur_rule_tree := tree
            selectorsChanged := rc.2
            rules := rules2 }

/-- Lines 102-168 of `Parser.toCss`: indentation accounting, the two
indentation checks, scope popping, and statement classification, for a
normalized non-blank line. -/
def processIndented (cbs : List Callback) (st : PState) (lineno : Nat)
    (line : List Char) : Except PError PState :=
  let ind := leadingWs line
  let u := effIndenter st line
  if 0 < u ∧ ind % u ≠ 0 then .error (.parserError lineno "Indentation error")
  else
    let newlevel := effLevel st line
    let stripped := pyStripList line
    if st.level + 1 < newlevel then .error (.parserError lineno "Indentation error")
    else
      let pfx := popPrefixes st.cur_rule_tree.length newlevel st.rule_prefixes
      let tree := popTree newlevel st.cur_rule_tree
      match matchSelector stripped with
      | some g =>
        let sels := (splitComma g).map (fun l => String.mk (pyStripList l))
        .ok { st with
              indenter := u
              level := newlevel
              rule_prefixes := pfx
              cur_rule_tree := tree ++ [sels]
              selectorsChanged := true }
      | none =>
        match matchPrefixHeader stripped with
        | some tok =>
          .ok { st with
                indenter := u
                level := newlevel
                rule_prefixes := pfx ++ [String.mk tok]
                cur_rule_tree := tree }
        | none =>
          match matchDefinition stripped with
          | some (g1, g2) =>
            if tree = [] then
              .error (.parserError lineno "Selector expected, found definition")
            else definitionStep cbs st (effIndenter st line) newlevel pfx tree
                   (String.mk g1) (String.mk g2)
          | none => .error (.parserError lineno "Unexpected item")

/-- Lines 93-100 of `Parser.toCss`, after the carried block-comment state is
resolved: apply `_r_comment.sub`, handle an unterminated block-comment start,
skip blank lines. -/
def processCore (cbs : List Callback) (st : PState) (lineno : Nat)
    (l : List Char) : Except PError PState :=
  let l1 := stripScan false none l
  let st1 := if containsCommentStart l1 then { st with comment := true } else st
  let l2 := if containsCommentStart l1 then truncAtCommentStart l1 else l1
  if pyStripList l2 = [] then .ok st1 else processIndented cbs st1 lineno l2

/-- One iteration of the line loop of `Parser.toCss` (lines 86-168): resolve
the carried block-comment flag, then normalize and classify. -/
def processLine (cbs : List Callback) (st : PState) (lineno : Nat)
    (line : String) : Except PError PState :=
  if st.comment then
    match afterCommentEnd line.data with
    | none => .ok st
    | some rest => processCore cbs { st with comment := false } lineno rest
  else processCore cbs st lineno line.data

/-- The whole line loop: fold `processLine` over the source, stopping at the
first error; `lineno` is the number of lines already consumed. -/
def runLines (cbs : List Callback) : PState → Nat → List String → Except PError PState
  | st, _, [] => .ok st
  | st, n, line :: rest =>
    match processLine cbs st (n + 1) line with
    | .error e => .error e
    | .ok st' => runLines cbs st' (n + 1) rest

/-- One iteration of the output loop of `Parser.toCss` (lines 172-184): the
accumulator is the current open media header (Python `media_query`) and the
output pieces so far. -/
def renderStep : Option String × List String → RuleSel × List String →
    Option String × List String
  | (mq, out), (.media q inner, defs) =>
    let rd := joinSep "\n\t\t" defs
    let mq2 := if some q ≠ mq then some q else mq
    let out2 := if some q ≠ mq then out ++ [q ++ " \x7b\n"] else out
    (mq2, out2 ++ ["\t" ++ inner ++ " \x7b\n\t\t" ++ rd ++ "\n\t\x7d\n"])
  | (mq, out), (.plain s, defs) =>
    let out2 := if mq.isSome then out ++ ["\x7d\n"] else out
    let rd := joinSep "\n\t" defs
    (none, out2 ++ [s ++ " \x7b\n\t" ++ rd ++ "\n\x7d\n"])

/-- The output rendering of `Parser.toCss` (lines 170-187): walk the
accumulated rules, closing any still-open media block at the end. -/
def renderRules (rules : List (RuleSel × List String)) : String :=
  let acc := rules.foldl renderStep (none, [])
  String.join (acc.2 ++ (if acc.1.isSome then ["\x7d\n"] else []))

/-- `Parser.toCss` in full: run the line loop from the initial state, then
render the accumulated rules. -/
def toCss (cbs : List Callback) (lines : List String) : Except PError String :=
  match runLines cbs initState 0 lines with
  | .error e => .error e
  | .ok st => .ok (renderRules st.rules)

/-- `cleancss.convert(sourcestream, callback=None)`. -/
def convert (lines : List String) (cb : Option Callback) : Except PError String :=
  toCss (match cb with | some c => [c] | none => []) lines

/-- Stated from the spec's words (section 4.5), for comparison with the
source-derived `combineTail`: combining one head selector with one flattened
tail suffix — if the suffix starts with the parent-reference sigil, strip it
and concatenate directly with no inserted space, otherwise insert exactly
one space. -/
def specCombine (hd t : String) : String :=
  if t.data.head? = some '&' then hd ++ String.mk t.data.tail
  else hd ++ " " ++ t

/-- Stated from the spec's words (sections 3 and 9), for comparison with the
source-derived callback application: the chained pipeline in which each
callback consumes the pairs produced by the previous one. -/
def chainCallbacks (cbs : List Callback) (p v : String) :
    List (String × String) :=
  cbs.foldl (fun acc cb => (acc.map (fun pv => cb pv.1 pv.2)).flatten) [(p, v)]

/-- A concrete callback tagging property names with `A`. -/
def cbA : Callback := fun p v => [(p ++ "A", v)]

/-- A concrete callback tagging property names with `B`. -/
def cbB : Callback := fun p v => [(p ++ "B", v)]

/-- The parser state after processing the single selector header `a:`. -/
def selHeaderState : PState :=
  { initState with selectorsChanged := true, cur_rule_tree := [["a"]] }

/-- The parser state after processing the single header `@media print:`. -/
def mediaHeaderState : PState :=
  { initState with selectorsChanged := true, cur_rule_tree := [["@media print"]] }

/-- An input whose last line is a property definition whose enclosing
selector stack is solely the `@media` group, reached by dedenting out of an
inner scope after a rule was already opened. -/
def mediaDedentInput : List String :=
  ["@media print:", "    a:", "        x: 1", "    y: 2"]

/-- The parser state after the first three lines of `mediaDedentInput`. -/
def mediaDedentState : PState :=
  { level := 2, indenter := 4, selectorsChanged := false, comment := false,
    rules := [(.media "@media print" "a", ["x: 1;"])],
    cur_rule_tree := [["@media print"], ["a"]], rule_prefixes := [] }

/-- An input with two consecutive `@media` blocks with different headers. -/
def mediaSwitchInput : List String :=
  ["@media screen:", "  a:", "    x: 1", "@media print:", "  b:", "    y: 2"]

/-- What the renderer actually produces for `mediaSwitchInput`. -/
def mediaSwitchOutput : String :=
  "@media screen \x7b\n\ta \x7b\n\t\tx: 1;\n\t\x7d\n@media print \x7b\n\tb \x7b\n\t\ty: 2;\n\t\x7d\n\x7d\n"

instance {e a : Type} [DecidableEq e] [DecidableEq a] : DecidableEq (Except e a) :=
  fun x y =>
    match x, y with
    | .ok u, .ok v => decidable_of_iff (u = v) (by simp)
    | .error u, .error v => decidable_of_iff (u = v) (by simp)
    | .ok _, .error _ => isFalse (fun h => Except.noConfusion h)
    | .error _, .ok _ => isFalse (fun h => Except.noConfusion h)

/-- Every error of the rule-opening step is an uncaught `IndexError`. -/
theorem openRule_error_eq (st : PState) (tree : List (List String)) (e : PError)
    (h : openRule st tree = .error e) : e = PError.indexError := by
  unfold openRule at h
  split at h
  · split at h
    · simp_all
    · simp_all
    · split at h
      all_goals (split at h <;> simp_all)
  · simp_all

/-- Every error of the declaration-appending step is an uncaught
`IndexError`. -/
theorem appendDecls_error_eq (rules : List (RuleSel × List String))
    (decls : List String) (e : PError)
    (h : appendDecls rules decls = .error e) : e = PError.indexError := by
  unfold appendDecls at h
  split at h <;> simp_all

/-- Splitting principle for `Except.bind` ending in an error. -/
theorem except_bind_error {α β : Type} {x : Except PError α}
    {f : α → Except PError β} {e : PError} (h : Except.bind x f = .error e) :
    x = .error e ∨ ∃ a, x = .ok a ∧ f a = .error e := by
  cases x with
  | error e' => left; simp_all [Except.bind]
  | ok a => right; exact ⟨a, rfl, by simpa [Except.bind] using h⟩

/-- Splitting principle for `Except.bind` ending in a success. -/
theorem except_bind_ok {α β : Type} {x : Except PError α}
    {f : α → Except PError β} {b : β} (h : Except.bind x f = .ok b) :
    ∃ a, x = .ok a ∧ f a = .ok b := by
  cases x with
  | error e' => simp_all [Except.bind]
  | ok a => exact ⟨a, rfl, by simpa [Except.bind] using h⟩

/-- Every error raised inside the definition branch past the
empty-tree check is an uncaught `IndexError`, never a `ParserError`. -/
theorem definitionStep_error_eq (cbs : List Callback) (st : PState)
    (u nl : Nat) (pfx : List String) (tree : List (List String))
    (name value : String) (e : PError)
    (h : definitionStep cbs st u nl pfx tree name value = .error e) :
    e = PError.indexError := by
  unfold definitionStep at h
  rcases except_bind_error h with h1 | ⟨rc, _, h2⟩
  · exact openRule_error_eq st tree e h1
  · simp only [] at h2
    rcases except_bind_error h2 with h3 | ⟨r2, _, h4⟩
    · exact appendDecls_error_eq _ _ e h3
    · simp_all

/-- C4: once an indentation unit has been established (`indenter > 0`), a
subsequent non-blank line whose leading-whitespace length is not an exact
multiple of the unit makes the conversion fail with `ParserError(lineno,
'Indentation error')` carrying that line's 1-based number, and the line loop
stops at the first error, processing no further lines. -/
theorem c4_indentation_unit_error (cbs : List Callback) (st : PState)
    (n : Nat) (line : List Char) (h1 : 0 < st.indenter)
    (h2 : leadingWs line % st.indenter ≠ 0) :
    processIndented cbs st n line = .error (.parserError n "Indentation error") ∧
    ∀ (st0 : PState) (l : String) (ls : List String) (m : Nat) (e : PError),
      processLine cbs st0 (m + 1) l = .error e →
      runLines cbs st0 m (l :: ls) = .error e := by
  constructor
  · have hne : ¬(st.indenter = 0 ∧ 0 < leadingWs line) := by
      intro hc
      omega
    have hu : effIndenter st line = st.indenter := by
      unfold effIndenter
      exact if_neg hne
    unfold processIndented
    rw [hu, if_pos ⟨h1, h2⟩]
  · intro st0 l ls m e h
    unfold runLines
    rw [h]

/-- Concrete instantiation of C4: with unit 4 established, a line indented
by 2 fails with the indentation `ParserError` at its own line number. -/
theorem c4_indentation_unit_error_witness :
    0 < (4 : Nat) ∧ leadingWs "  x: 1".data % 4 ≠ 0 ∧
    processIndented [] { initState with indenter := 4 } 7 "  x: 1".data =
      .error (.parserError 7 "Indentation error") :=
  ⟨by decide, by decide,
   (c4_indentation_unit_error [] { initState with indenter := 4 } 7
     "  x: 1".data (by decide) (by decide)).1⟩

/-- C5: when the indentation-multiple check passes, a line whose computed
nesting level exceeds the previous processed line's level by more than 1
fails with `ParserError(lineno, 'Indentation error')` at that line's number,
while a level increase of exactly 1, any decrease, or an unchanged level
never trigger that error. -/
theorem c5_level_jump (cbs : List Callback) (st : PState) (n : Nat)
    (line : List Char)
    (hmul : effIndenter st line = 0 ∨
            leadingWs line % effIndenter st line = 0) :
    (st.level + 1 < effLevel st line →
       processIndented cbs st n line =
         .error (.parserError n "Indentation error")) ∧
    (effLevel st line ≤ st.level + 1 →
       processIndented cbs st n line ≠
         .error (.parserError n "Indentation error")) := by
  have hg : ¬(0 < effIndenter st line ∧
      leadingWs line % effIndenter st line ≠ 0) := by
    rcases hmul with h | h <;> omega
  constructor
  · intro hj
    unfold processIndented
    rw [if_neg hg, if_pos hj]
  · intro hj h
    unfold processIndented at h
    rw [if_neg hg, if_neg (by omega)] at h
    rcases hs : matchSelector (pyStripList line) with _ | g
    · simp only [hs] at h
      rcases hp : matchPrefixHeader (pyStripList line) with _ | tok
      · simp only [hp] at h
        rcases hd : matchDefinition (pyStripList line) with _ | ⟨g1, g2⟩
        · simp only [hd, Except.error.injEq, PError.parserError.injEq] at h
          exact absurd h.2 (by decide)
        · simp only [hd] at h
          split at h
          · simp only [Except.error.injEq, PError.parserError.injEq] at h
            exact absurd h.2 (by decide)
          · exact PError.noConfusion (definitionStep_error_eq _ _ _ _ _ _ _ _ _ h)
      · simp only [hp] at h
        exact Except.noConfusion h
    · simp only [hs] at h
      exact Except.noConfusion h

/-- Concrete instantiation of C5: with unit 2 and previous level 0, a line
at level 2 (a jump of 2) fails with the indentation `ParserError`. -/
theorem c5_level_jump_witness :
    (effIndenter { initState with indenter := 2 } "    x: 1".data = 0 ∨
     leadingWs "    x: 1".data %
       effIndenter { initState with indenter := 2 } "    x: 1".data = 0) ∧
    ({ initState with indenter := 2 } : PState).level + 1 <
      effLevel { initState with indenter := 2 } "    x: 1".data ∧
    processIndented [] { initState with indenter := 2 } 4 "    x: 1".data =
      .error (.parserError 4 "Indentation error") :=
  ⟨Or.inr (by decide), by decide,
   (c5_level_jump [] { initState with indenter := 2 } 4 "    x: 1".data
     (Or.inr (by decide))).1 (by decide)⟩

/-- C6: a line classified as a property definition (it matches neither the
selector nor the prefix pattern but does match the definition pattern, and
passes both indentation checks) fails with `ParserError(lineno, 'Selector
expected, found definition')` exactly when the selector-group stack after
popping is empty; with at least one open selector scope that error is never
raised. -/
theorem c6_missing_selector (cbs : List Callback) (st : PState) (n : Nat)
    (line : List Char)
    (hmul : effIndenter st line = 0 ∨
            leadingWs line % effIndenter st line = 0)
    (hjump : effLevel st line ≤ st.level + 1)
    (hsel : matchSelector (pyStripList line) = none)
    (hpre : matchPrefixHeader (pyStripList line) = none)
    (hdef : (matchDefinition (pyStripList line)).isSome) :
    (popTree (effLevel st line) st.cur_rule_tree = [] →
       processIndented cbs st n line =
         .error (.parserError n "Selector expected, found definition")) ∧
    (popTree (effLevel st line) st.cur_rule_tree ≠ [] →
       processIndented cbs st n line ≠
         .error (.parserError n "Selector expected, found definition")) := by
  have hg : ¬(0 < effIndenter st line ∧
      leadingWs line % effIndenter st line ≠ 0) := by
    rcases hmul with h | h <;> omega
  obtain ⟨⟨g1, g2⟩, hd⟩ := Option.isSome_iff_exists.mp hdef
  constructor
  · intro ht
    unfold processIndented
    rw [if_neg hg, if_neg (by omega)]
    simp only [hsel, hpre, hd]
    rw [if_pos ht]
  · intro ht h
    unfold processIndented at h
    rw [if_neg hg, if_neg (by omega)] at h
    simp only [hsel, hpre, hd] at h
    rw [if_neg ht] at h
    exact PError.noConfusion (definitionStep_error_eq _ _ _ _ _ _ _ _ _ h)

/-- For a nonempty tail suffix, the source's combination agrees with the
spec-shaped `specCombine`. -/
theorem combineTail_eq_specCombine (hd t : String) (ht : t ≠ "") :
    combineTail hd t = some (specCombine hd t) := by
  unfold combineTail specCombine
  obtain ⟨data⟩ := t
  cases data with
  | nil => exact absurd rfl ht
  | cons c cs =>
    by_cases hc : c = '&'
    · subst hc; simp
    · simp [hc]

/-- The inner loop of the flattener maps `specCombine` over the tails. -/
theorem combineAll_eq_map (hd : String) (ts : List String)
    (hts : ∀ t ∈ ts, t ≠ "") :
    combineAll hd ts = some (ts.map (specCombine hd)) := by
  induction ts with
  | nil => rfl
  | cons t ts ih =>
    unfold combineAll
    rw [combineTail_eq_specCombine hd t (hts t (by simp)),
        ih (fun x hx => hts x (by simp [hx]))]
    rfl

/-- The outer loop of the flattener: heads outermost, tails innermost. -/
theorem combineBase_eq_map (tails base : List String)
    (hts : ∀ t ∈ tails, t ≠ "") :
    combineBase tails base =
      some ((base.map (fun hd => tails.map (specCombine hd))).flatten) := by
  induction base with
  | nil => rfl
  | cons hd hs ih =>
    unfold combineBase
    rw [combineAll_eq_map hd tails hts, ih]
    rfl

/-- Concrete instantiation of C6: `x: 1` as the very first line (empty
selector stack) fails with the missing-selector `ParserError` at line 1. -/
theorem c6_missing_selector_witness :
    matchSelector (pyStripList "x: 1".data) = none ∧
    (matchDefinition (pyStripList "x: 1".data)).isSome ∧
    popTree (effLevel initState "x: 1".data) initState.cur_rule_tree = [] ∧
    processIndented [] initState 1 "x: 1".data =
      .error (.parserError 1 "Selector expected, found definition") :=
  ⟨by decide, by decide, by decide,
   (c6_missing_selector [] initState 1 "x: 1".data (Or.inl (by decide))
     (by decide) (by decide) (by decide) (by decide)).1 (by decide)⟩

/-- C7: flattening a stack of more than one selector group combines each
head selector with each recursively flattened tail suffix, in order: a
suffix starting with the `&` sigil is concatenated directly with the sigil
stripped and no inserted space, any other suffix is concatenated with
exactly one inserted space (`specCombine` states these two cases in the
spec's words). -/
theorem c7_parent_reference_combination (base g : List String)
    (rest : List (List String)) (tails : List String)
    (htails : flattenSelectors (g :: rest) = some tails)
    (hne : ∀ t ∈ tails, t ≠ "") :
    flattenSelectors (base :: g :: rest) =
      some ((base.map (fun hd => tails.map (specCombine hd))).flatten) := by
  have h1 : flattenSelectors (base :: g :: rest) =
      match flattenSelectors (g :: rest) with
      | none => none
      | some ts => combineBase ts base := rfl
  rw [h1, htails]
  exact combineBase_eq_map tails base hne

/-- Concrete instantiation of C7: two heads over the tails `&x` and `y`
give sigil-stripped direct concatenations and space-separated descendants,
heads outermost. -/
theorem c7_parent_reference_combination_witness :
    flattenSelectors [["&x", "y"]] = some ["&x", "y"] ∧
    (∀ t ∈ ["&x", "y"], t ≠ "") ∧
    flattenSelectors [["a", "b"], ["&x", "y"]] =
      some ["ax", "a y", "bx", "b y"] :=
  ⟨by decide, by decide,
   (c7_parent_reference_combination ["a", "b"] ["&x", "y"] [] ["&x", "y"]
     (by decide) (by decide)).trans (by decide)⟩

/-- Outcome of a successful rule-opening step: the `selectorsChanged` flag
comes out false; the rule list is unchanged when the flag was already false
and grows by exactly one fresh rule when it was true. -/
theorem openRule_ok_facts (st : PState) (tree : List (List String))
    (rules1 : List (RuleSel × List String)) (changed : Bool)
    (h : openRule st tree = .ok (rules1, changed)) :
    changed = false ∧
    (st.selectorsChanged = false → rules1 = st.rules) ∧
    (st.selectorsChanged = true → rules1.length = st.rules.length + 1) := by
  unfold openRule at h
  split at h
  · next hsc =>
    split at h
    · exact Except.noConfusion h
    · exact Except.noConfusion h
    · split at h
      · split at h
        · exact Except.noConfusion h
        · simp only [Except.ok.injEq, Prod.mk.injEq] at h
          refine ⟨h.2.symm, fun hf => absurd hsc (by simp [hf]), fun _ => ?_⟩
          rw [← h.1]; simp
      · split at h
        · exact Except.noConfusion h
        · simp only [Except.ok.injEq, Prod.mk.injEq] at h
          refine ⟨h.2.symm, fun hf => absurd hsc (by simp [hf]), fun _ => ?_⟩
          rw [← h.1]; simp
  · next hsc =>
    simp only [Except.ok.injEq, Prod.mk.injEq] at h
    simp only [Bool.not_eq_true] at hsc
    exact ⟨h.2.symm.trans hsc, fun _ => h.1.symm,
           fun ht => absurd ht (by simp [hsc])⟩

/-- A successful declaration-append keeps the number of rules. -/
theorem appendDecls_ok_length (rules : List (RuleSel × List String))
    (decls : List String) (rules2 : List (RuleSel × List String))
    (h : appendDecls rules decls = .ok rules2) :
    rules2.length = rules.length := by
  unfold appendDecls at h
  split at h
  · exact Except.noConfusion h
  · next last hlast =>
    simp only [Except.ok.injEq] at h
    have hne : rules ≠ [] := by
      intro hr
      subst hr
      exact Option.noConfusion hlast
    have hpos : 1 ≤ rules.length := List.length_pos.mpr hne
    rw [← h]
    simp only [List.length_append, List.length_dropLast, List.length_cons,
               List.length_nil]
    omega

/-- C8: a selector-header line leaves the accumulated rules untouched, and
a successfully processed line that changes the number of accumulated rules
must be a property definition seen while the selector stack had changed — it
adds exactly one rule and clears the changed flag.  Together: selector
headers alone contribute no output; a rule is created only by the first
property definition after the selector stack changed. -/
theorem c8_deferred_rule_open (cbs : List Callback) (st : PState) (n : Nat)
    (line : List Char) (st' : PState) :
    ((∃ g, matchSelector (pyStripList line) = some g) →
       processIndented cbs st n line = .ok st' → st'.rules = st.rules) ∧
    (processIndented cbs st n line = .ok st' →
       st'.rules.length ≠ st.rules.length →
       (matchDefinition (pyStripList line)).isSome ∧
       st.selectorsChanged = true ∧ st'.selectorsChanged = false ∧
       st'.rules.length = st.rules.length + 1) := by
  constructor
  · rintro ⟨g, hg⟩ h
    unfold processIndented at h
    simp only [] at h
    split at h
    · exact Except.noConfusion h
    · split at h
      · exact Except.noConfusion h
      · simp only [hg, Except.ok.injEq] at h
        rw [← h]
  · intro h hlen
    unfold processIndented at h
    simp only [] at h
    split at h
    · exact Except.noConfusion h
    · split at h
      · exact Except.noConfusion h
      · rcases hs : matchSelector (pyStripList line) with _ | g
        · simp only [hs] at h
          rcases hp : matchPrefixHeader (pyStripList line) with _ | tok
          · simp only [hp] at h
            rcases hd : matchDefinition (pyStripList line) with _ | ⟨g1, g2⟩
            · simp only [hd] at h
              exact Except.noConfusion h
            · simp only [hd] at h
              split at h
              · exact Except.noConfusion h
              · unfold definitionStep at h
                rcases except_bind_ok h with ⟨⟨rules1, changed⟩, ho, h2⟩
                simp only [] at h2
                rcases except_bind_ok h2 with ⟨rules2, ha, h3⟩
                simp only [Except.ok.injEq] at h3
                obtain ⟨hch, hsame, hgrow⟩ :=
                  openRule_ok_facts st _ rules1 changed ho
                have hlen2 := appendDecls_ok_length rules1 _ rules2 ha
                have hrules : st'.rules = rules2 := by rw [← h3]
                have hflag : st'.selectorsChanged = changed := by rw [← h3]
                by_cases hsc : st.selectorsChanged
                · refine ⟨by simp [hd], hsc, hflag.trans hch, ?_⟩
                  rw [hrules, hlen2, hgrow hsc]
                · exfalso
                  apply hlen
                  rw [hrules, hlen2, hsame (by simpa using hsc)]
          · simp only [hp, Except.ok.injEq] at h
            rw [← h] at hlen
            exact absurd rfl hlen
        · simp only [hs, Except.ok.injEq] at h
          rw [← h] at hlen
          exact absurd rfl hlen

/-- C9: flattening is associative over nesting — for selector groups `A`,
`B`, `C`, when no selector produced by flattening `[B, C]` starts with `&`,
flattening `[A, B, C]` equals flattening the two-level stack `[A, S]` where
`S` is the flattening of `[B, C]`. -/
theorem c9_flatten_assoc (A B C S : List String)
    (hS : flattenSelectors [B, C] = some S)
    (_hamp : ∀ t ∈ S, t.data.head? ≠ some '&') :
    flattenSelectors [A, B, C] = flattenSelectors [A, S] := by
  have h1 : flattenSelectors [A, B, C] =
      match flattenSelectors [B, C] with
      | none => none
      | some ts => combineBase ts A := rfl
  rw [h1, hS]
  rfl

/-- Concrete instantiation of C9 at `A = [a]`, `B = [b]`, `C = [c]`,
`S = [b c]`. -/
theorem c9_flatten_assoc_witness :
    flattenSelectors [["b"], ["c"]] = some ["b c"] ∧
    (∀ t ∈ ["b c"], t.data.head? ≠ some '&') ∧
    flattenSelectors [["a"], ["b"], ["c"]] = flattenSelectors [["a"], ["b c"]] :=
  ⟨by decide, by decide,
   c9_flatten_assoc ["a"] ["b"] ["c"] ["b c"] (by decide) (by decide)⟩

/-- C8 witness: processing the selector header `a:` from the initial state
succeeds and leaves the (empty) rule list unchanged. -/
theorem c8_deferred_rule_open_witness :
    (∃ g, matchSelector (pyStripList "a:".data) = some g) ∧
    processIndented [] initState 1 "a:".data = .ok selHeaderState ∧
    selHeaderState.rules = initState.rules :=
  ⟨⟨"a".data, by decide⟩, by decide,
   (c8_deferred_rule_open [] initState 1 "a:".data selHeaderState).1
     ⟨"a".data, by decide⟩ (by decide)⟩

/-- Refutation of C10 as stated: `mediaDedentInput` contains a property
definition (`y: 2`, line 4) whose enclosing selector stack at classification
time is solely the single `@media` group, yet the conversion returns a
normal result (no `IndexError`, no `ParserError`): with `selectorsChanged`
false, the media branch is skipped and the declaration is appended to the
previously opened rule. -/
theorem c10_media_only_counterexample :
    runLines [] initState 0 (mediaDedentInput.take 3) = .ok mediaDedentState ∧
    popTree (effLevel mediaDedentState "    y: 2".data)
      mediaDedentState.cur_rule_tree = [["@media print"]] ∧
    (matchDefinition (pyStripList "    y: 2".data)).isSome ∧
    toCss [] mediaDedentInput =
      .ok "@media print \x7b\n\ta \x7b\n\t\tx: 1;\n\t\ty: 2;\n\t\x7d\n\x7d\n" :=
  ⟨by decide, by decide, by decide, by decide⟩

/-- C10 (amended): a property definition processed while the selector set
has changed (`selectorsChanged` true), with the popped selector stack
consisting solely of a single `@media` group, makes the conversion fail with
the uncaught `IndexError` (neither a result nor a `ParserError`): the media
branch calls the flattener on the empty remainder of the stack, whose first
step indexes the head of the empty list. -/
theorem c10_media_only_indexerror (cbs : List Callback) (st : PState)
    (n : Nat) (line : List Char) (s : String) (grest : List String)
    (hmul : effIndenter st line = 0 ∨
            leadingWs line % effIndenter st line = 0)
    (hjump : effLevel st line ≤ st.level + 1)
    (hsel : matchSelector (pyStripList line) = none)
    (hpre : matchPrefixHeader (pyStripList line) = none)
    (hdef : (matchDefinition (pyStripList line)).isSome)
    (htree : popTree (effLevel st line) st.cur_rule_tree = [s :: grest])
    (hmedia : startsWithMedia s = true)
    (hch : st.selectorsChanged = true) :
    processIndented cbs st n line = .error .indexError := by
  have hg : ¬(0 < effIndenter st line ∧
      leadingWs line % effIndenter st line ≠ 0) := by
    rcases hmul with h | h <;> omega
  obtain ⟨⟨g1, g2⟩, hd⟩ := Option.isSome_iff_exists.mp hdef
  unfold processIndented
  rw [if_neg hg, if_neg (by omega)]
  simp only [hsel, hpre, hd, htree]
  rw [if_neg (by simp)]
  unfold definitionStep openRule
  rw [if_pos hch]
  simp [hmedia, flattenSelectors, Except.bind]

/-- A slash-free list contains no block-comment terminator. -/
theorem hasBlockEnd_eq_false (l : List Char) (h : '/' ∉ l) :
    hasBlockEnd l = false := by
  induction l with
  | nil => rfl
  | cons c rest ih =>
    have hrest : '/' ∉ rest := fun hm => h (List.mem_cons_of_mem _ hm)
    cases rest with
    | nil => rfl
    | cons d rest' =>
      have hd : d ≠ '/' := fun hh => h (hh ▸ List.mem_cons_of_mem _ (List.mem_cons_self _ _))
      have he : hasBlockEnd (c :: d :: rest') =
          ((c == '*' && d == '/') || hasBlockEnd (d :: rest')) := rfl
      rw [he, ih hrest]
      simp [hd]

/-- Scanning a slash-free prefix keeps it verbatim and only moves the
lookbehind character to the prefix's last character. -/
theorem stripScan_append (pre : List Char) :
    ∀ (prev : Option Char) (rest : List Char), '/' ∉ pre →
    stripScan false prev (pre ++ rest) =
      pre ++ stripScan false (lastOr prev pre) rest := by
  induction pre with
  | nil => intro prev rest h; rfl
  | cons c pre' ih =>
    intro prev rest h
    have hc : c ≠ '/' := fun hh => h (hh ▸ List.mem_cons_self _ _)
    have hpre' : '/' ∉ pre' := fun hm => h (List.mem_cons_of_mem _ hm)
    show stripScan false prev (c :: (pre' ++ rest)) = _
    cases hpr : pre' ++ rest with
    | nil =>
      obtain ⟨hp, hr⟩ := List.append_eq_nil.mp hpr
      subst hp hr
      rfl
    | cons d l2 =>
      have he : stripScan false prev (c :: d :: l2) =
          (if c = '/' ∧ d = '*' ∧ hasBlockEnd l2 = true then
             stripScan true none l2
           else if c = '/' ∧ d = '/' ∧ prev ≠ some ':' then []
           else c :: stripScan false (some c) (d :: l2)) := rfl
      rw [he, if_neg (fun hx => hc hx.1), if_neg (fun hx => hc hx.1), ← hpr,
          ih (some c) rest hpre']
      rfl

/-- Scanning a slash-free line in normal mode is the identity. -/
theorem stripScan_noslash_id (l : List Char) (prev : Option Char)
    (h : '/' ∉ l) : stripScan false prev l = l := by
  have h2 := stripScan_append l prev [] h
  rw [List.append_nil] at h2
  rw [h2]
  simp [stripScan]

/-- A single slash followed by a slash-free tail is kept verbatim. -/
theorem stripScan_single_slash (post : List Char) (prev : Option Char)
    (h : '/' ∉ post) : stripScan false prev ('/' :: post) = '/' :: post := by
  cases post with
  | nil => rfl
  | cons d post' =>
    have hd : d ≠ '/' := fun hh => h (hh ▸ List.mem_cons_self _ _)
    have hpost' : '/' ∉ post' := fun hm => h (List.mem_cons_of_mem _ hm)
    have h1 : ¬('/' = '/' ∧ d = '*' ∧ hasBlockEnd post' = true) := by
      rintro ⟨-, -, hb⟩
      rw [hasBlockEnd_eq_false post' hpost'] at hb
      exact Bool.noConfusion hb
    have h2 : ¬('/' = '/' ∧ d = '/' ∧ prev ≠ some ':') := fun hx => hd hx.2.1
    have he : stripScan false prev ('/' :: d :: post') =
        (if '/' = '/' ∧ d = '*' ∧ hasBlockEnd post' = true then
           stripScan true none post'
         else if '/' = '/' ∧ d = '/' ∧ prev ≠ some ':' then []
         else '/' :: stripScan false (some '/') (d :: post')) := rfl
    rw [he, if_neg h1, if_neg h2, stripScan_noslash_id (d :: post') (some '/') h]

/-- Refutation of C3 as stated: the lookbehind guard `(?<!:)` protects any
`//` directly following `:`, so the double slashes of `https://` and
`ftp://` are not stripped either (while a true line comment after a space
is stripped). -/
theorem c3_scheme_guard_counterexample :
    stripComments "background: url(https://e.com/a)" =
      "background: url(https://e.com/a)" ∧
    stripComments "background: url(ftp://h/a)" = "background: url(ftp://h/a)" ∧
    stripComments "x: 1 // note" = "x: 1 " :=
  ⟨rfl, rfl, rfl⟩

/-- C3 (amended): the line-comment stripper removes `//` and the rest of
the line exactly when the `//` is not immediately preceded by `:`; the guard
is purely about the preceding character, so it protects `http://`,
`https://`, `ftp://` and any other `//` directly after a colon alike, while
any `//` after a different character (for example inside a quoted string)
is stripped as a line comment. -/
theorem c3_line_comment_guard (pre post : List Char) (c : Char)
    (hpre : '/' ∉ pre) (hpost : '/' ∉ post)
    (hlast : lastOr none pre = some c) :
    stripComments (String.mk (pre ++ '/' :: '/' :: post)) =
      (if c = ':' then String.mk (pre ++ '/' :: '/' :: post)
       else String.mk pre) := by
  unfold stripComments
  have hdata : (String.mk (pre ++ '/' :: '/' :: post)).data =
      pre ++ '/' :: '/' :: post := rfl
  rw [hdata, stripScan_append pre none ('/' :: '/' :: post) hpre, hlast]
  have he : stripScan false (some c) ('/' :: '/' :: post) =
      (if '/' = '/' ∧ '/' = '*' ∧ hasBlockEnd post = true then
         stripScan true none post
       else if '/' = '/' ∧ '/' = '/' ∧ some c ≠ some ':' then []
       else '/' :: stripScan false (some '/') ('/' :: post)) := rfl
  by_cases hc : c = ':'
  · subst hc
    rw [if_pos rfl, he,
        if_neg (fun hx => absurd hx.2.1 (by decide)),
        if_neg (fun hx => hx.2.2 rfl),
        stripScan_single_slash post (some '/') hpost]
  · rw [if_neg hc, he,
        if_neg (fun hx => absurd hx.2.1 (by decide)),
        if_pos ⟨rfl, rfl, fun hx => hc (Option.some.inj hx)⟩,
        List.append_nil]

/-- C3 witness: `x: a//b` has its `//` stripped (preceding character `a`),
as the amended guard predicts. -/
theorem c3_line_comment_guard_witness :
    ('/' ∉ "x: a".data) ∧ ('/' ∉ "b".data) ∧
    lastOr none "x: a".data = some 'a' ∧
    stripComments (String.mk ("x: a".data ++ '/' :: '/' :: "b".data)) =
      String.mk "x: a".data :=
  ⟨by decide, by decide, by decide,
   (c3_line_comment_guard "x: a".data "b".data 'a' (by decide) (by decide)
     (by decide)).trans (if_neg (by decide))⟩

/-- C2: when a media-pair rule whose header differs from the currently open
media block's header is emitted, the renderer opens the new block without
first closing the open one — the output for two consecutive `@media` blocks
with different headers has four opening braces but only three closing
braces (the block-closing line the spec requires is missing, leaving the
CSS unbalanced). -/
theorem c2_media_switch_missing_close :
    toCss [] mediaSwitchInput = .ok mediaSwitchOutput ∧
    mediaSwitchOutput.data.count '\x7b' = 4 ∧
    mediaSwitchOutput.data.count '\x7d' = 3 :=
  ⟨rfl, by decide, by decide⟩

/-- Refutation of C1 as stated: with the two callbacks `cbA` and `cbB`
registered, the conversion renders the declarations `xA: 1;` and `xB: 1;`
(each callback applied to the original pair), not the `xAB: 1;` that the
claimed sequential chaining (`chainCallbacks`) would produce. -/
theorem c1_chaining_counterexample :
    toCss [cbA, cbB] ["a:", "  x: 1"] =
      .ok "a \x7b\n\txA: 1;\n\txB: 1;\n\x7d\n" ∧
    chainCallbacks [cbA, cbB] "x" "1" = [("xAB", "1")] ∧
    renderRules [(.plain "a", (chainCallbacks [cbA, cbB] "x" "1").map
      (fun pv => pv.1 ++ ": " ++ pv.2 ++ ";"))] = "a \x7b\n\txAB: 1;\n\x7d\n" ∧
    ("a \x7b\n\txA: 1;\n\txB: 1;\n\x7d\n" : String) ≠
      "a \x7b\n\txAB: 1;\n\x7d\n" :=
  ⟨rfl, rfl, rfl, by decide⟩

/-- C1 (amended): when two property callbacks are registered, each callback
is applied independently to the original `(name, value)` pair and the
resulting pair lists are concatenated in registration order — the second
callback never sees the first one's output. -/
theorem c1_callbacks_independent_fanout (f g : Callback) :
    toCss [f, g] ["a:", "  x: 1"] =
      .ok (renderRules [(.plain "a",
        (f "x" "1" ++ g "x" "1").map
          (fun pv => pv.1 ++ ": " ++ pv.2 ++ ";"))]) := by
  have h : toCss [f, g] ["a:", "  x: 1"] =
      .ok (renderRules [(.plain "a",
        (([f, g].map (fun cb => cb "x" "1")).flatten).map
          (fun pv => pv.1 ++ ": " ++ pv.2 ++ ";"))]) := rfl
  rw [h]
  simp

/-- C10 witness: the first property definition directly under a sole
`@media print:` header crashes with the uncaught `IndexError`. -/
theorem c10_media_only_indexerror_witness :
    startsWithMedia "@media print" = true ∧
    mediaHeaderState.selectorsChanged = true ∧
    popTree (effLevel mediaHeaderState "  x: 1".data)
      mediaHeaderState.cur_rule_tree = [["@media print"]] ∧
    processIndented [] mediaHeaderState 2 "  x: 1".data = .error .indexError :=
  ⟨by decide, by decide, by decide,
   c10_media_only_indexerror [] mediaHeaderState 2 "  x: 1".data
     "@media print" [] (Or.inr (by decide)) (by decide) (by decide)
     (by decide) (by decide) (by decide) (by decide) rfl⟩

end CleanCss
